import Mathlib

/-!
# Verification of the RssAiSummaryCompilation feed-processing pipeline

Shallow embedding of the feed-processing core of the repository:
`src/services/rss.service.ts`, `src/services/summarizer.service.ts`,
`src/services/lark.service.ts`, `src/services/processor.service.ts`, and the
watermark persistence of `config.service.ts` / the storage helpers
(`updateFeedLastProcessed`, `updateFeedLastProcessedKV`, `isVercelEnvironment`).

External effects (the RSS parser, the LLM HTTP call, the webhook delivery, and
store-write failures) are modelled as components of a `World` record; the
`Int`-valued `World.getTime` stands for JavaScript's `new Date(s).getTime()`
on the date strings that occur (invalid-date `NaN` behaviour is outside the
model). JavaScript string falsiness (`undefined` and `""` are both falsy) is
modelled explicitly by the `jsOr*` helpers.
-/

/-- JavaScript `a || b` for an optional string `a` with string default `b`:
`undefined` and `""` are falsy. -/
def jsOr (o : Option String) (d : String) : String :=
  match o with
  | some s => if s = "" then d else s
  | none => d

/-- JavaScript `a || b` where both sides are optional strings and the result
may stay `undefined` (as in `article.pubDate || article.isoDate`). -/
def jsOrOpt (a b : Option String) : Option String :=
  match a with
  | some s => if s = "" then b else some s
  | none => b

/-- JavaScript `a || b` on two plain strings (`""` is falsy). -/
def jsOrStr (a b : String) : String :=
  if a = "" then b else a

/-- JavaScript truthiness test on an optional string, keeping the value:
`some ""` and `none` both collapse to `none`. -/
def optTruthy (o : Option String) : Option String :=
  match o with
  | some s => if s = "" then none else some s
  | none => none

/-- JavaScript `n || d` on an optional number (`0` and `undefined` are falsy),
as in `config.articlesPerFeed || 5`. -/
def jsOrNat (o : Option Nat) (d : Nat) : Nat :=
  match o with
  | some n => if n = 0 then d else n
  | none => d

/-- Character-list equality of `pat` with the front of `s`. -/
def takeEq : List Char → List Char → Bool
  | [], _ => true
  | _ :: _, [] => false
  | a :: as, b :: bs => a == b && takeEq as bs

/-- Substring occurrence on character lists. -/
def charsContain (pat : List Char) : List Char → Bool
  | [] => pat.isEmpty
  | c :: rest => takeEq pat (c :: rest) || charsContain pat rest

/-- JavaScript `s.includes(pat)` (as in `webhookUrl.includes('larksuite.com')`). -/
def jsIncludes (s pat : String) : Bool :=
  charsContain pat.data s.data

/-- JavaScript `String.prototype.trim` restricted to ASCII whitespace,
modelling `content.trim()`. -/
def jsTrim (s : String) : String :=
  let ws := fun c : Char => c == ' ' || c == '\t' || c == '\n' || c == '\r'
  String.mk ((((s.data.dropWhile ws).reverse.dropWhile ws).reverse))

/-- `LLMConfig` of `src/types.ts` (provider tag dropped: it does not affect
the summarizer's control flow). -/
structure LLMConfig where
  apiKey : String
  model : Option String := none
  maxTokens : Option Nat := none
deriving DecidableEq, Repr

/-- A raw `rss-parser` item as consumed by `fetchFeedArticles`
(`item.title`, `item.link`, `item.pubDate`, `item.isoDate`,
`item.fullContent`, `item.content`, `item.description`). -/
structure RawItem where
  title : Option String := none
  link : Option String := none
  pubDate : Option String := none
  isoDate : Option String := none
  fullContent : Option String := none
  content : Option String := none
  description : Option String := none
deriving DecidableEq, Repr

/-- `FeedArticle` after the mapping in `fetchFeedArticles`
(`title || 'Untitled'`, `fullContent || content || ''`, `description || ''`). -/
structure FeedArticle where
  title : String
  link : Option String
  pubDate : Option String
  isoDate : Option String
  content : String
  description : String
deriving DecidableEq, Repr

/-- `FeedConfig` of `src/types.ts`. -/
structure FeedConfig where
  id : String
  url : String
  name : String
  enabled : Bool
  customPrompt : Option String := none
  lastProcessed : Option String := none
deriving DecidableEq, Repr

/-- `SummaryResult` of `src/types.ts`. -/
structure SummaryResult where
  feedId : String
  feedName : String
  title : String
  originalLink : Option String
  summary : String
  publishedAt : Option String
  source : Option String
deriving DecidableEq, Repr

/-- `FeedSummaryBundle` of `src/types.ts` (consumed only by the dead
`sendBundleToLark`). -/
structure FeedSummaryBundle where
  feedId : String
  feedName : String
  articles : List SummaryResult
deriving DecidableEq, Repr

/-- Payload of one webhook delivery: `sendToLark` posts one summary,
`sendBundleToLark` posts a consolidated bundle. -/
inductive NotifPayload where
  | single (s : SummaryResult)
  | bundle (b : FeedSummaryBundle)
deriving DecidableEq, Repr

/-- Result of `larkBaseService.fetchFeedsFromBase`. -/
structure LarkFetchResult where
  feeds : List FeedConfig
  errors : List String
deriving DecidableEq, Repr

/-- The external collaborators of the pipeline, plus the ambient state the
services read: RSS reader, `new Date(...).getTime()`, the global LLM config,
the LLM HTTP call, webhook delivery, the Lark-Base feed fetch, the
environment flag, store-write failure, and the run's `new Date().toISOString()`. -/
structure World where
  getTime : String → Int
  reader : String → Except String (List RawItem)
  llmConfig : Option LLMConfig
  api : String → String → Except String String
  deliver : NotifPayload → Except String Unit
  larkFetch : Except String LarkFetchResult
  isVercel : Bool
  storeFail : String → Bool
  now : String

/-- `ProcessorConfig` of `processor.service.ts` (the `larkBase` payload is
irrelevant to control flow beyond its presence). -/
structure ProcessorConfig where
  feeds : List FeedConfig
  webhookUrl : String
  defaultSystemPrompt : String
  articlesPerFeed : Option Nat := none
  configPath : Option String := none
  larkBase : Option Unit := none

/-- The effective timestamp of an article, from both the filter and the sort
comparator of `fetchFeedArticles`:
`article.isoDate ? getTime(isoDate) : article.pubDate ? getTime(pubDate) : 0`. -/
def effTs (gt : String → Int) (a : FeedArticle) : Int :=
  match optTruthy a.isoDate with
  | some s => gt s
  | none =>
    match optTruthy a.pubDate with
    | some s => gt s
    | none => 0

/-- The per-item mapping at the top of `fetchFeedArticles`. -/
def mapItem (it : RawItem) : FeedArticle :=
  { title := jsOr it.title "Untitled"
    link := it.link
    pubDate := it.pubDate
    isoDate := it.isoDate
    content := jsOr it.fullContent (jsOr it.content "")
    description := jsOr it.description "" }

/-- Stable insertion (descending by `key`) matching the stable JavaScript
`sort((a, b) => dateB - dateA)`. -/
def insertByDesc (key : FeedArticle → Int) (x : FeedArticle) :
    List FeedArticle → List FeedArticle
  | [] => [x]
  | y :: ys =>
    if key y ≤ key x then x :: y :: ys else y :: insertByDesc key x ys

/-- Stable descending sort by `key` (newest first). -/
def sortByDesc (key : FeedArticle → Int) : List FeedArticle → List FeedArticle
  | [] => []
  | x :: xs => insertByDesc key x (sortByDesc key xs)

/-- `fetchFeedArticles` of `rss.service.ts`: map items, filter by the
exclusive since-comparison when `sinceDate` is truthy, sort newest first,
truncate to `limit`; a parser failure is rethrown with context. -/
def fetchFeedArticles (w : World) (feedUrl : String) (limit : Nat)
    (sinceDate : Option String) : Except String (List FeedArticle) :=
  match w.reader feedUrl with
  | .error e => .error ("Failed to fetch RSS feed from " ++ feedUrl ++ ": " ++ e)
  | .ok items =>
    let articles := items.map mapItem
    let filtered :=
      match sinceDate with
      | some s =>
        if s = "" then articles
        else articles.filter (fun a => decide (w.getTime s < effTs w.getTime a))
      | none => articles
    .ok ((sortByDesc (effTs w.getTime) filtered).take limit)

/-- `summarizeContent` of `summarizer.service.ts`. Returns the outcome
together with the number of remote API calls performed (0 or 1). The
initialization guard `!llmConfig?.apiKey` precedes the empty-content check. -/
def summarizeContent (w : World) (content : String) (systemPrompt : String) :
    Except String String × Nat :=
  match w.llmConfig with
  | none => (.error "OpenAI API not initialized. Call initializeLLMClient first.", 0)
  | some cfg =>
    if cfg.apiKey = "" then
      (.error "OpenAI API not initialized. Call initializeLLMClient first.", 0)
    else if jsTrim content = "" then
      (.ok "No content to summarize.", 0)
    else
      match w.api content systemPrompt with
      | .ok text => (.ok text, 1)
      | .error e => (.error ("Failed to summarize content: " ++ e), 1)

/-- `initializeLLMClient` of `summarizer.service.ts`: rejects an empty API
key, otherwise installs the configuration as the global LLM config. -/
def initializeLLMClient (cfg : LLMConfig) : Except String LLMConfig :=
  if cfg.apiKey = "" then .error "OpenAI API key is required" else .ok cfg

/-- `sendToLark` of `lark.service.ts`: validate the webhook URL, then deliver
a single-summary payload. -/
def sendToLark (w : World) (webhookUrl : String) (summary : SummaryResult) :
    Except String Unit :=
  if webhookUrl = "" then .error "Lark webhook URL is required"
  else if !(jsIncludes webhookUrl "larksuite.com") then
    .error "Invalid Lark webhook URL"
  else
    match w.deliver (.single summary) with
    | .ok _ => .ok ()
    | .error e => .error ("Failed to send message to Lark: " ++ e)

/-- `sendBundleToLark` of `lark.service.ts` — defined in the repository but
never invoked by `processAllFeeds`. -/
def sendBundleToLark (w : World) (webhookUrl : String) (b : FeedSummaryBundle) :
    Except String Unit :=
  if webhookUrl = "" then .error "Lark webhook URL is required"
  else if !(jsIncludes webhookUrl "larksuite.com") then
    .error "Invalid Lark webhook URL"
  else
    match w.deliver (.bundle b) with
    | .ok _ => .ok ()
    | .error e => .error ("Failed to send message to Lark: " ++ e)

/-- Construction of one `SummaryResult` in the loop of `processSingleFeed`
(note `publishedAt: article.pubDate || article.isoDate` — the raw date wins). -/
def mkSummary (feed : FeedConfig) (a : FeedArticle) (text : String) :
    SummaryResult :=
  { feedId := feed.id
    feedName := feed.name
    title := a.title
    originalLink := a.link
    summary := text
    publishedAt := jsOrOpt a.pubDate a.isoDate
    source := some feed.name }

/-- The per-article summarization loop of `processSingleFeed`: the effective
content is `article.content || article.description || article.title`; a failed
summarization skips the article. -/
def summarizeLoop (w : World) (feed : FeedConfig) (systemPrompt : String) :
    List FeedArticle → List SummaryResult
  | [] => []
  | a :: rest =>
    let content := jsOrStr a.content (jsOrStr a.description a.title)
    match (summarizeContent w content systemPrompt).1 with
    | .ok text => mkSummary feed a text :: summarizeLoop w feed systemPrompt rest
    | .error _ => summarizeLoop w feed systemPrompt rest

/-- `processSingleFeed` of `processor.service.ts`: pass `feed.lastProcessed`
as the since-date only when `onlyNew` and the watermark is truthy; a reader
failure or an empty article list yields `[]` (caught, not propagated). -/
def processSingleFeed (w : World) (feed : FeedConfig) (defaultPrompt : String)
    (maxArticles : Nat) (onlyNew : Bool) : List SummaryResult :=
  let sinceDate := if onlyNew then optTruthy feed.lastProcessed else none
  match fetchFeedArticles w feed.url maxArticles sinceDate with
  | .error _ => []
  | .ok articles =>
    match articles with
    | [] => []
    | _ :: _ =>
      summarizeLoop w feed (jsOr feed.customPrompt defaultPrompt) articles

/-- The inner send loop of `processAllFeeds`: one `sendToLark` call per
summary. Returns (successful sends, failed sends, payloads attempted in
order). -/
def sendLoop (w : World) (webhookUrl : String) :
    List SummaryResult → Nat × Nat × List NotifPayload
  | [] => (0, 0, [])
  | s :: rest =>
    let r := sendToLark w webhookUrl s
    let t := sendLoop w webhookUrl rest
    match r with
    | .ok _ => (t.1 + 1, t.2.1, NotifPayload.single s :: t.2.2)
    | .error _ => (t.1, t.2.1 + 1, NotifPayload.single s :: t.2.2)

/-- The find-first-and-set watermark write shared by
`updateFeedLastProcessed` (file store) and `updateFeedLastProcessedKV`
(KV store): set `lastProcessed` of the first feed with the given id. -/
def updateFirst : List FeedConfig → String → String → List FeedConfig
  | [], _, _ => []
  | f :: fs, id, now =>
    if f.id = id then { f with lastProcessed := some now } :: fs
    else f :: updateFirst fs id now

/-- The watermark-update step of `processAllFeeds` for one feed: KV write in
the Vercel environment, file write when `config.configPath` is truthy,
otherwise nothing; a failing write is caught and leaves the store unchanged. -/
def markStore (w : World) (cfg : ProcessorConfig) (store : List FeedConfig)
    (feed : FeedConfig) : List FeedConfig :=
  if w.isVercel then
    if w.storeFail feed.id then store else updateFirst store feed.id w.now
  else
    match optTruthy cfg.configPath with
    | some _ =>
      if w.storeFail feed.id then store else updateFirst store feed.id w.now
    | none => store

/-- Accumulated state of one `processAllFeeds` run: the three report
counters, the persisted feeds configuration, and the trace of Notifier calls
(feed-loop id paired with the delivered payload). -/
structure RunState where
  totalSummaries : Nat
  successCount : Nat
  failureCount : Nat
  store : List FeedConfig
  trace : List (String × NotifPayload)
deriving DecidableEq, Repr

/-- One iteration of the feed loop in `processAllFeeds`: process the feed,
send each summary individually, update the watermark when at least one
summary was produced (regardless of send outcomes), then increment
`successCount` unconditionally — the surrounding `catch` is unreachable
because `processSingleFeed` traps its own errors. -/
def stepFeed (w : World) (cfg : ProcessorConfig) (onlyNew : Bool)
    (st : RunState) (feed : FeedConfig) : RunState :=
  let summaries :=
    processSingleFeed w feed cfg.defaultSystemPrompt
      (jsOrNat cfg.articlesPerFeed 5) onlyNew
  let sends := sendLoop w cfg.webhookUrl summaries
  let store' :=
    if summaries.length > 0 then markStore w cfg st.store feed else st.store
  { totalSummaries := st.totalSummaries + sends.1
    successCount := st.successCount + 1
    failureCount := st.failureCount + sends.2.1
    store := store'
    trace := st.trace ++ sends.2.2.map (fun p => (feed.id, p)) }

/-- `getFeedsWithLarkBase` of `processor.service.ts`: merge Lark-Base feeds
(taking precedence by id) when configured and non-empty; fall back to the
configured feeds on failure or emptiness. -/
def getFeedsWithLarkBase (w : World) (cfg : ProcessorConfig) :
    List FeedConfig :=
  match cfg.larkBase with
  | none => cfg.feeds
  | some _ =>
    match w.larkFetch with
    | .error _ => cfg.feeds
    | .ok res =>
      if res.feeds.isEmpty then cfg.feeds
      else
        res.feeds ++
          cfg.feeds.filter (fun f => !(res.feeds.any (fun lf => lf.id == f.id)))

/-- `processAllFeeds` of `processor.service.ts`, with `store` the persisted
feeds configuration (file or KV) that watermark writes go to. -/
def processAllFeeds (w : World) (cfg : ProcessorConfig)
    (store : List FeedConfig) (onlyNew : Bool) : RunState :=
  ((getFeedsWithLarkBase w cfg).filter (fun f => f.enabled)).foldl
    (stepFeed w cfg onlyNew)
    { totalSummaries := 0, successCount := 0, failureCount := 0
      store := store, trace := [] }

/-- Shorthand for the summaries `processAllFeeds` computes for one feed. -/
def feedSummaries (w : World) (cfg : ProcessorConfig) (onlyNew : Bool)
    (feed : FeedConfig) : List SummaryResult :=
  processSingleFeed w feed cfg.defaultSystemPrompt
    (jsOrNat cfg.articlesPerFeed 5) onlyNew

/-- Whether a watermark write has anywhere to go: Vercel KV or a truthy
`configPath`. -/
def hasStorePath (w : World) (cfg : ProcessorConfig) : Bool :=
  w.isVercel || (optTruthy cfg.configPath).isSome

/-- Watermark advancement applied to one stored feed record. -/
def markFeed (now : String) (f : FeedConfig) : FeedConfig :=
  { f with lastProcessed := some now }

/-- Successful Notifier deliveries for one feed in a run. -/
def okSends (w : World) (cfg : ProcessorConfig) (onlyNew : Bool)
    (f : FeedConfig) : Nat :=
  (sendLoop w cfg.webhookUrl (feedSummaries w cfg onlyNew f)).1

/-- Failed Notifier deliveries for one feed in a run. -/
def failSends (w : World) (cfg : ProcessorConfig) (onlyNew : Bool)
    (f : FeedConfig) : Nat :=
  (sendLoop w cfg.webhookUrl (feedSummaries w cfg onlyNew f)).2.1

/-- The Notifier-call trace contributed by one feed in a run. -/
def feedTrace (w : World) (cfg : ProcessorConfig) (onlyNew : Bool)
    (f : FeedConfig) : List (String × NotifPayload) :=
  ((sendLoop w cfg.webhookUrl (feedSummaries w cfg onlyNew f)).2.2).map
    (fun p => (f.id, p))

/-- The store evolution of one feed-loop iteration, in isolation. -/
def storeStep (w : World) (cfg : ProcessorConfig) (onlyNew : Bool)
    (s : List FeedConfig) (f : FeedConfig) : List FeedConfig :=
  if (feedSummaries w cfg onlyNew f).length > 0 then markStore w cfg s f else s

lemma sendLoop_trace (w : World) (url : String) :
    ∀ l : List SummaryResult,
      (sendLoop w url l).2.2 = l.map NotifPayload.single := by
  intro l
  induction l with
  | nil => rfl
  | cons s rest ih =>
    simp only [sendLoop]
    cases sendToLark w url s <;> simp [ih]

lemma foldl_stepFeed_success (w : World) (cfg : ProcessorConfig)
    (onlyNew : Bool) :
    ∀ (fs : List FeedConfig) (st : RunState),
      (fs.foldl (stepFeed w cfg onlyNew) st).successCount
        = st.successCount + fs.length := by
  intro fs
  induction fs with
  | nil => intro st; simp
  | cons f fs ih =>
    intro st
    rw [List.foldl_cons, ih]
    simp [stepFeed]
    omega

lemma foldl_stepFeed_total (w : World) (cfg : ProcessorConfig)
    (onlyNew : Bool) :
    ∀ (fs : List FeedConfig) (st : RunState),
      (fs.foldl (stepFeed w cfg onlyNew) st).totalSummaries
        = st.totalSummaries + (fs.map (okSends w cfg onlyNew)).sum := by
  intro fs
  induction fs with
  | nil => intro st; simp
  | cons f fs ih =>
    intro st
    rw [List.foldl_cons, ih]
    simp [stepFeed, okSends, feedSummaries]
    omega

lemma foldl_stepFeed_fail (w : World) (cfg : ProcessorConfig)
    (onlyNew : Bool) :
    ∀ (fs : List FeedConfig) (st : RunState),
      (fs.foldl (stepFeed w cfg onlyNew) st).failureCount
        = st.failureCount + (fs.map (failSends w cfg onlyNew)).sum := by
  intro fs
  induction fs with
  | nil => intro st; simp
  | cons f fs ih =>
    intro st
    rw [List.foldl_cons, ih]
    simp [stepFeed, failSends, feedSummaries]
    omega

lemma foldl_stepFeed_trace (w : World) (cfg : ProcessorConfig)
    (onlyNew : Bool) :
    ∀ (fs : List FeedConfig) (st : RunState),
      (fs.foldl (stepFeed w cfg onlyNew) st).trace
        = st.trace ++ (fs.map (feedTrace w cfg onlyNew)).flatten := by
  intro fs
  induction fs with
  | nil => intro st; simp
  | cons f fs ih =>
    intro st
    rw [List.foldl_cons, ih]
    simp [stepFeed, feedTrace, feedSummaries]

lemma foldl_stepFeed_store (w : World) (cfg : ProcessorConfig)
    (onlyNew : Bool) :
    ∀ (fs : List FeedConfig) (st : RunState),
      (fs.foldl (stepFeed w cfg onlyNew) st).store
        = fs.foldl (storeStep w cfg onlyNew) st.store := by
  intro fs
  induction fs with
  | nil => intro st; simp
  | cons f fs ih =>
    intro st
    rw [List.foldl_cons, ih, List.foldl_cons]
    rfl

/-- The per-feed watermark outcome of one run: advanced exactly when the feed
is enabled, produced at least one summary, a store path exists, and the store
write does not fail. -/
def markIf (w : World) (cfg : ProcessorConfig) (onlyNew : Bool)
    (f : FeedConfig) : FeedConfig :=
  if f.enabled = true ∧ (feedSummaries w cfg onlyNew f).length > 0 ∧
      hasStorePath w cfg = true ∧ w.storeFail f.id = false then
    markFeed w.now f
  else f

lemma markFeed_id (now : String) (f : FeedConfig) :
    (markFeed now f).id = f.id := rfl

lemma markIf_id (w : World) (cfg : ProcessorConfig) (onlyNew : Bool)
    (f : FeedConfig) : (markIf w cfg onlyNew f).id = f.id := by
  unfold markIf
  split <;> rfl

lemma updateFirst_cons_self (f : FeedConfig) (fs : List FeedConfig)
    (now : String) :
    updateFirst (f :: fs) f.id now = markFeed now f :: fs := by
  simp [updateFirst, markFeed]

lemma updateFirst_append_of_notmem (pre l : List FeedConfig) (id now : String)
    (h : id ∉ pre.map FeedConfig.id) :
    updateFirst (pre ++ l) id now = pre ++ updateFirst l id now := by
  induction pre with
  | nil => rfl
  | cons p ps ih =>
    simp only [List.map_cons, List.mem_cons, not_or] at h
    simp only [List.cons_append, updateFirst, if_neg (Ne.symm h.1)]
    exact congrArg (p :: ·) (ih h.2)

lemma markStore_eq (w : World) (cfg : ProcessorConfig) (s : List FeedConfig)
    (f : FeedConfig) :
    markStore w cfg s f
      = if hasStorePath w cfg = true ∧ w.storeFail f.id = false then
          updateFirst s f.id w.now
        else s := by
  cases hv : w.isVercel with
  | true =>
    cases hfail : w.storeFail f.id <;>
      simp [markStore, hasStorePath, hv, hfail]
  | false =>
    cases ho : optTruthy cfg.configPath with
    | none => simp [markStore, hasStorePath, hv, ho]
    | some p =>
      cases hfail : w.storeFail f.id <;>
        simp [markStore, hasStorePath, hv, ho, hfail]

lemma fold_storeStep_char (w : World) (cfg : ProcessorConfig) (onlyNew : Bool) :
    ∀ (store pre : List FeedConfig),
      ((pre ++ store).map FeedConfig.id).Nodup →
      ((store.filter (fun f => f.enabled)).foldl (storeStep w cfg onlyNew)
          (pre ++ store))
        = pre ++ store.map (markIf w cfg onlyNew) := by
  intro store
  induction store with
  | nil => intro pre _; simp
  | cons f rest ih =>
    intro pre h
    have hid : f.id ∉ pre.map FeedConfig.id := by
      intro hmem
      rw [List.map_append, List.nodup_append] at h
      exact h.2.2 hmem (by simp)
    by_cases hf : f.enabled
    · have hnd' : ((pre ++ [markIf w cfg onlyNew f] ++ rest).map
          FeedConfig.id).Nodup := by
        have hsame : (pre ++ [markIf w cfg onlyNew f] ++ rest).map FeedConfig.id
            = (pre ++ f :: rest).map FeedConfig.id := by
          simp [markIf_id]
        rw [hsame]; exact h
      have hfil : (f :: rest).filter (fun g => g.enabled)
          = f :: rest.filter (fun g => g.enabled) := by
        simp [hf]
      have hstep : storeStep w cfg onlyNew (pre ++ f :: rest) f
          = pre ++ markIf w cfg onlyNew f :: rest := by
        by_cases hlen : (feedSummaries w cfg onlyNew f).length > 0
        · by_cases hpf : hasStorePath w cfg = true ∧ w.storeFail f.id = false
          · rw [storeStep, if_pos hlen, markStore_eq, if_pos hpf,
              updateFirst_append_of_notmem _ _ _ _ hid,
              updateFirst_cons_self, markIf, if_pos ⟨hf, hlen, hpf⟩]
          · rw [storeStep, if_pos hlen, markStore_eq, if_neg hpf, markIf,
              if_neg (by tauto)]
        · rw [storeStep, if_neg hlen, markIf, if_neg (by tauto)]
      rw [hfil, List.foldl_cons, hstep]
      have hsplit : pre ++ markIf w cfg onlyNew f :: rest
          = (pre ++ [markIf w cfg onlyNew f]) ++ rest := by simp
      rw [hsplit, ih (pre ++ [markIf w cfg onlyNew f]) hnd']
      simp
    · have hfil : (f :: rest).filter (fun g => g.enabled)
          = rest.filter (fun g => g.enabled) := by
        simp [hf]
      have hmif : markIf w cfg onlyNew f = f := by
        rw [markIf, if_neg (by tauto)]
      have hsplit : pre ++ f :: rest = (pre ++ [f]) ++ rest := by simp
      rw [hfil, hsplit, ih (pre ++ [f]) (by simpa using h)]
      simp [hmif]

lemma getFeedsWithLarkBase_none (w : World) (cfg : ProcessorConfig)
    (hlb : cfg.larkBase = none) : getFeedsWithLarkBase w cfg = cfg.feeds := by
  rw [getFeedsWithLarkBase, hlb]

lemma processAllFeeds_store_char (w : World) (cfg : ProcessorConfig)
    (store : List FeedConfig) (onlyNew : Bool)
    (hlb : cfg.larkBase = none) (hfeeds : cfg.feeds = store)
    (hnd : (store.map FeedConfig.id).Nodup) :
    (processAllFeeds w cfg store onlyNew).store
      = store.map (markIf w cfg onlyNew) := by
  rw [processAllFeeds, getFeedsWithLarkBase_none w cfg hlb, hfeeds,
    foldl_stepFeed_store]
  have h := fold_storeStep_char w cfg onlyNew store [] (by simpa using hnd)
  simpa using h

lemma mem_insertByDesc (key : FeedArticle → Int) (x a : FeedArticle) :
    ∀ l : List FeedArticle, a ∈ insertByDesc key x l → a = x ∨ a ∈ l := by
  intro l
  induction l with
  | nil =>
    intro h
    left
    simpa [insertByDesc] using h
  | cons y ys ih =>
    intro h
    rw [insertByDesc] at h
    by_cases hk : key y ≤ key x
    · rw [if_pos hk] at h
      rcases List.mem_cons.mp h with h1 | h1
      · exact Or.inl h1
      · exact Or.inr h1
    · rw [if_neg hk] at h
      rcases List.mem_cons.mp h with h1 | h1
      · exact Or.inr (by simp [h1])
      · rcases ih h1 with h2 | h2
        · exact Or.inl h2
        · exact Or.inr (by simp [h2])

lemma pairwise_insertByDesc (key : FeedArticle → Int) (x : FeedArticle) :
    ∀ l : List FeedArticle,
      l.Pairwise (fun a b => key b ≤ key a) →
      (insertByDesc key x l).Pairwise (fun a b => key b ≤ key a) := by
  intro l
  induction l with
  | nil => intro _; simp [insertByDesc]
  | cons y ys ih =>
    intro h
    rw [List.pairwise_cons] at h
    rw [insertByDesc]
    split
    · rename_i hk
      rw [List.pairwise_cons]
      constructor
      · intro b hb
        rcases List.mem_cons.mp hb with hb' | hb'
        · simpa [hb'] using hk
        · exact le_trans (h.1 b hb') hk
      · exact List.pairwise_cons.mpr h
    · rename_i hk
      rw [List.pairwise_cons]
      constructor
      · intro b hb
        rcases mem_insertByDesc key x b ys hb with hb' | hb'
        · subst hb'
          exact le_of_lt (lt_of_not_le hk)
        · exact h.1 b hb'
      · exact ih h.2

lemma sortByDesc_pairwise (key : FeedArticle → Int) :
    ∀ l : List FeedArticle,
      (sortByDesc key l).Pairwise (fun a b => key b ≤ key a) := by
  intro l
  induction l with
  | nil => simp [sortByDesc]
  | cons x xs ih => exact pairwise_insertByDesc key x _ ih

lemma mem_sortByDesc_subset (key : FeedArticle → Int) (a : FeedArticle) :
    ∀ l : List FeedArticle, a ∈ sortByDesc key l → a ∈ l := by
  intro l
  induction l with
  | nil => intro h; simp [sortByDesc] at h
  | cons x xs ih =>
    intro h
    rw [sortByDesc] at h
    rcases mem_insertByDesc key x a _ h with h' | h'
    · simp [h']
    · simp [ih h']

lemma fetch_ok_sorted (w : World) (url : String) (limit : Nat)
    (sinceDate : Option String) (articles : List FeedArticle)
    (h : fetchFeedArticles w url limit sinceDate = .ok articles) :
    articles.Pairwise
        (fun a b => effTs w.getTime b ≤ effTs w.getTime a) ∧
      articles.length ≤ limit := by
  rw [fetchFeedArticles] at h
  cases hr : w.reader url with
  | error e => rw [hr] at h; exact absurd h (by simp)
  | ok items =>
    rw [hr] at h
    simp only [Except.ok.injEq] at h
    subst h
    constructor
    · exact ((sortByDesc_pairwise (effTs w.getTime) _).sublist
        (List.take_sublist _ _))
    · exact List.length_take_le _ _

lemma fetch_since_strict (w : World) (url : String) (limit : Nat) (s : String)
    (articles : List FeedArticle) (hs : s ≠ "")
    (h : fetchFeedArticles w url limit (some s) = .ok articles) :
    ∀ a ∈ articles, w.getTime s < effTs w.getTime a := by
  rw [fetchFeedArticles] at h
  cases hr : w.reader url with
  | error e => rw [hr] at h; exact absurd h (by simp)
  | ok items =>
    rw [hr] at h
    simp only [if_neg hs, Except.ok.injEq] at h
    subst h
    intro a ha
    have h1 : a ∈ sortByDesc (effTs w.getTime)
        ((items.map mapItem).filter
          (fun a => decide (w.getTime s < effTs w.getTime a))) :=
      List.take_subset _ _ ha
    have h2 := mem_sortByDesc_subset (effTs w.getTime) a _ h1
    have h3 := (List.mem_filter.mp h2).2
    exact of_decide_eq_true h3

lemma fetchFeedArticles_congr (w w' : World) (h1 : w.getTime = w'.getTime)
    (h2 : w.reader = w'.reader) (url : String) (limit : Nat)
    (sinceDate : Option String) :
    fetchFeedArticles w url limit sinceDate
      = fetchFeedArticles w' url limit sinceDate := by
  rw [fetchFeedArticles, fetchFeedArticles, h1, h2]

lemma summarizeContent_congr (w w' : World) (h3 : w.llmConfig = w'.llmConfig)
    (h4 : w.api = w'.api) (content systemPrompt : String) :
    summarizeContent w content systemPrompt
      = summarizeContent w' content systemPrompt := by
  rw [summarizeContent, summarizeContent, h3, h4]

lemma summarizeLoop_congr (w w' : World) (h3 : w.llmConfig = w'.llmConfig)
    (h4 : w.api = w'.api) (feed : FeedConfig) (systemPrompt : String) :
    ∀ arts : List FeedArticle,
      summarizeLoop w feed systemPrompt arts
        = summarizeLoop w' feed systemPrompt arts := by
  intro arts
  induction arts with
  | nil => rfl
  | cons a rest ih =>
    simp only [summarizeLoop]
    rw [summarizeContent_congr w w' h3 h4]
    cases (summarizeContent w'
        (jsOrStr a.content (jsOrStr a.description a.title)) systemPrompt).1 with
    | ok t => simp [ih]
    | error e => simp [ih]

lemma processSingleFeed_congr (w w' : World) (h1 : w.getTime = w'.getTime)
    (h2 : w.reader = w'.reader) (h3 : w.llmConfig = w'.llmConfig)
    (h4 : w.api = w'.api) (f : FeedConfig) (dp : String) (m : Nat) (b : Bool) :
    processSingleFeed w f dp m b = processSingleFeed w' f dp m b := by
  simp only [processSingleFeed]
  rw [fetchFeedArticles_congr w w' h1 h2]
  cases fetchFeedArticles w' f.url m
      (if b = true then optTruthy f.lastProcessed else none) with
  | error e => rfl
  | ok articles =>
    cases articles with
    | nil => rfl
    | cons a rest =>
      exact summarizeLoop_congr w w' h3 h4 f _ _

lemma processSingleFeed_empty_of_watermark (w : World) (f : FeedConfig)
    (dp : String) (m : Nat) (nw : String)
    (hlp : f.lastProcessed = some nw) (hnw : nw ≠ "")
    (hfut : ∀ items, w.reader f.url = .ok items →
      ∀ it ∈ items, effTs w.getTime (mapItem it) ≤ w.getTime nw) :
    processSingleFeed w f dp m true = [] := by
  simp only [processSingleFeed, hlp, optTruthy, if_neg hnw, if_pos rfl, if_true]
  cases hr : w.reader f.url with
  | error e =>
    have hfetch : fetchFeedArticles w f.url m (some nw) = .error
        ("Failed to fetch RSS feed from " ++ f.url ++ ": " ++ e) := by
      rw [fetchFeedArticles, hr]
    rw [hfetch]
  | ok items =>
    have hfil : (items.map mapItem).filter
        (fun a => decide (w.getTime nw < effTs w.getTime a)) = [] := by
      rw [List.filter_eq_nil_iff]
      intro a ha
      rcases List.mem_map.mp ha with ⟨it, hit, rfl⟩
      intro hdec
      exact absurd (of_decide_eq_true hdec)
        (not_lt.mpr (hfut items hr it hit))
    have hfetch : fetchFeedArticles w f.url m (some nw) = .ok [] := by
      rw [fetchFeedArticles, hr]
      simp [if_neg hnw, hfil, sortByDesc]
    rw [hfetch]

/-! ## Concrete worlds used by counterexamples and witnesses -/

/-- Concrete `new Date(s).getTime()` table for the date strings used below. -/
def gtEx : String → Int := fun s =>
  if s = "t10" then 10 else if s = "t20" then 20
  else if s = "t30" then 30 else if s = "t99" then 99 else 0

/-- Item dated `t10` (older). -/
def itemA : RawItem :=
  { title := some "A", isoDate := some "t10", content := some "ca" }

/-- Item dated `t20` (newer). -/
def itemB : RawItem :=
  { title := some "B", isoDate := some "t20", content := some "cb" }

/-- Item with both a raw `pubDate` (`t10`) and a normalized `isoDate` (`t20`). -/
def itemBoth : RawItem :=
  { title := some "X", pubDate := some "t10", isoDate := some "t20"
    content := some "c" }

/-- One enabled feed with no watermark. -/
def exFeed : FeedConfig := { id := "f1", url := "u1", name := "F1", enabled := true }

/-- Everything-succeeds world: the feed at `u1` has two articles, summarizer
echoes content, webhook delivery succeeds, local file store at run time `t99`. -/
def exWorld : World :=
  { getTime := gtEx
    reader := fun u => if u = "u1" then .ok [itemA, itemB] else .error "no feed"
    llmConfig := some { apiKey := "k" }
    api := fun c _ => .ok c
    deliver := fun _ => .ok ()
    larkFetch := .error "not configured"
    isVercel := false
    storeFail := fun _ => false
    now := "t99" }

/-- Like `exWorld` but every webhook delivery fails. -/
def exWorldDown : World := { exWorld with deliver := fun _ => .error "down" }

/-- Like `exWorld` but the RSS reader throws for every URL. -/
def exWorldReadErr : World :=
  { exWorld with reader := fun _ => .error "network error" }

/-- Like `exWorld` but the only article carries both date fields. -/
def exWorldBoth : World :=
  { exWorld with reader := fun _ => .ok [itemBoth] }

/-- Processor configuration over `exFeed` with a local config file path. -/
def exCfg : ProcessorConfig :=
  { feeds := [exFeed], webhookUrl := "larksuite.com"
    defaultSystemPrompt := "dp", configPath := some "feeds.json" }

/-- Oldest item of the ordering example (timestamp `t10`). -/
def exItemT3 : RawItem :=
  { title := some "T3", isoDate := some "t10", content := some "c3" }

/-- Undated item of the ordering example (effective timestamp 0). -/
def exItemU : RawItem := { title := some "U", content := some "cu" }

/-- Newest item of the ordering example (timestamp `t30`). -/
def exItemT1 : RawItem :=
  { title := some "T1", isoDate := some "t30", content := some "c1" }

/-- Middle item of the ordering example (timestamp `t20`). -/
def exItemT2 : RawItem :=
  { title := some "T2", isoDate := some "t20", content := some "c2" }

/-- Ordering example of the spec: input order [T-3, T-1, T-2] with T-3 the
oldest, plus an undated article. -/
def exItemsOrder : List RawItem := [exItemT3, exItemU, exItemT1, exItemT2]

/-- World serving the ordering example at `u1`. -/
def exWorldOrder : World :=
  { exWorld with reader := fun _ => .ok exItemsOrder }

lemma filter_feedTrace_self (w : World) (cfg : ProcessorConfig)
    (onlyNew : Bool) (f : FeedConfig) :
    (feedTrace w cfg onlyNew f).filter (fun e => decide (e.1 = f.id))
      = feedTrace w cfg onlyNew f := by
  apply List.filter_eq_self.mpr
  intro e he
  rcases List.mem_map.mp he with ⟨p, hp, rfl⟩
  simp

lemma filter_feedTrace_ne (w : World) (cfg : ProcessorConfig) (onlyNew : Bool)
    (g : FeedConfig) (fid : String) (h : g.id ≠ fid) :
    (feedTrace w cfg onlyNew g).filter (fun e => decide (e.1 = fid)) = [] := by
  rw [List.filter_eq_nil_iff]
  intro e he
  rcases List.mem_map.mp he with ⟨p, hp, rfl⟩
  simp [h]

lemma filter_trace_flatten_ne (w : World) (cfg : ProcessorConfig)
    (onlyNew : Bool) (fid : String) :
    ∀ gs : List FeedConfig, (∀ g ∈ gs, g.id ≠ fid) →
      ((gs.map (feedTrace w cfg onlyNew)).flatten).filter
          (fun e => decide (e.1 = fid)) = [] := by
  intro gs
  induction gs with
  | nil => intro _; simp
  | cons g rest ih =>
    intro h
    simp only [List.map_cons, List.flatten_cons, List.filter_append]
    rw [filter_feedTrace_ne w cfg onlyNew g fid (h g (by simp)),
      ih (fun x hx => h x (by simp [hx]))]
    rfl

lemma filter_trace_blocks (w : World) (cfg : ProcessorConfig) (onlyNew : Bool)
    (f : FeedConfig) :
    ∀ fs : List FeedConfig, (fs.map FeedConfig.id).Nodup → f ∈ fs →
      (((fs.map (feedTrace w cfg onlyNew)).flatten).filter
          (fun e => decide (e.1 = f.id)))
        = feedTrace w cfg onlyNew f := by
  intro fs
  induction fs with
  | nil => intro _ h; simp at h
  | cons g rest ih =>
    intro hnd hmem
    rw [List.map_cons, List.nodup_cons] at hnd
    simp only [List.map_cons, List.flatten_cons, List.filter_append]
    rcases List.mem_cons.mp hmem with rfl | hmem2
    · rw [filter_feedTrace_self,
        filter_trace_flatten_ne w cfg onlyNew f.id rest ?hne]
      · simp
      case hne =>
        intro x hx heq
        exact hnd.1 (heq ▸ List.mem_map_of_mem FeedConfig.id hx)
    · have hgne : g.id ≠ f.id := by
        intro he
        exact hnd.1 (he ▸ List.mem_map_of_mem FeedConfig.id hmem2)
      rw [filter_feedTrace_ne w cfg onlyNew g f.id hgne, ih hnd.2 hmem2]
      simp

lemma feedTrace_payloads (w : World) (cfg : ProcessorConfig) (onlyNew : Bool)
    (f : FeedConfig) :
    (feedTrace w cfg onlyNew f).map (fun e => e.2)
      = (feedSummaries w cfg onlyNew f).map NotifPayload.single := by
  rw [feedTrace, List.map_map]
  have hcomp : ((fun e : String × NotifPayload => e.2) ∘
      fun p => (f.id, p)) = id := rfl
  rw [hcomp, List.map_id, sendLoop_trace]

/-! ## Claims -/

/-- C1 (counterexample): in the code, a feed whose processor returns a
non-empty Summary list (here 2 summaries) triggers two Notifier calls — one
`sendToLark` per summary — not exactly one bundled call. -/
theorem c1_per_article_not_bundle_cex :
    (processSingleFeed exWorld exFeed "dp" 5 false).length = 2 ∧
      ((processAllFeeds exWorld exCfg [exFeed] false).trace.filter
          (fun e => decide (e.1 = "f1"))).length = 2 := by
  decide

/-- C1 (amended): for every enabled feed, `processAllFeeds` calls the
Notifier once **per summary** — the calls attributed to the feed are exactly
its summary list, each delivered through `sendToLark` as a `single` payload,
never as one `bundle`; `sendBundleToLark` is never invoked. -/
theorem c1_notifier_called_once_per_summary (w : World)
    (cfg : ProcessorConfig) (store : List FeedConfig) (onlyNew : Bool)
    (f : FeedConfig) (hlb : cfg.larkBase = none)
    (hnd : ((cfg.feeds.filter (fun g => g.enabled)).map FeedConfig.id).Nodup)
    (hf : f ∈ cfg.feeds) (hen : f.enabled = true) :
    ((processAllFeeds w cfg store onlyNew).trace.filter
        (fun e => decide (e.1 = f.id))).map (fun e => e.2)
      = (feedSummaries w cfg onlyNew f).map NotifPayload.single := by
  rw [processAllFeeds, foldl_stepFeed_trace, getFeedsWithLarkBase_none w cfg hlb]
  simp only [List.nil_append]
  rw [filter_trace_blocks w cfg onlyNew f (cfg.feeds.filter (fun g => g.enabled))
    hnd (List.mem_filter.mpr ⟨hf, hen⟩), feedTrace_payloads]

/-- C1 (witness): the amended statement instantiated in the concrete world. -/
theorem c1_notifier_called_once_per_summary_witness :
    ((processAllFeeds exWorld exCfg [exFeed] false).trace.filter
        (fun e => decide (e.1 = exFeed.id))).map (fun e => e.2)
      = (feedSummaries exWorld exCfg false exFeed).map NotifPayload.single :=
  c1_notifier_called_once_per_summary exWorld exCfg [exFeed] false exFeed rfl
    (by decide) (by decide) (by decide)

/-- C2 (counterexample): a run in which every Notifier call fails (2 failed
sends, 0 successes) still advances the feed's watermark from `none` to the
run timestamp — the code updates `lastProcessed` whenever summaries were
produced, regardless of send outcome. -/
theorem c2_watermark_advanced_despite_failed_send_cex :
    (processAllFeeds exWorldDown exCfg [exFeed] false).failureCount = 2 ∧
      (processAllFeeds exWorldDown exCfg [exFeed] false).totalSummaries = 0 ∧
      (processAllFeeds exWorldDown exCfg [exFeed] false).store
        = [{ exFeed with lastProcessed := some "t99" }] ∧
      exFeed.lastProcessed = none := by
  decide

/-- C2 (amended): the watermark of a stored feed is advanced to the run
timestamp **iff** the feed is enabled, its processor returned at least one
summary, a store path exists (Vercel KV or a truthy `configPath`), and the
store write does not fail — independently of Notifier success or failure.
All other stored feeds are unchanged. -/
theorem c2_watermark_advance_characterization (w : World)
    (cfg : ProcessorConfig) (store : List FeedConfig) (onlyNew : Bool)
    (hlb : cfg.larkBase = none) (hfeeds : cfg.feeds = store)
    (hnd : (store.map FeedConfig.id).Nodup) :
    (processAllFeeds w cfg store onlyNew).store
      = store.map (markIf w cfg onlyNew) :=
  processAllFeeds_store_char w cfg store onlyNew hlb hfeeds hnd

/-- C2 (witness): the amended statement instantiated in the concrete world
where all deliveries fail. -/
theorem c2_watermark_advance_characterization_witness :
    (processAllFeeds exWorldDown exCfg [exFeed] false).store
      = [exFeed].map (markIf exWorldDown exCfg false) :=
  c2_watermark_advance_characterization exWorldDown exCfg [exFeed] false rfl
    rfl (by decide)

/-- C3 (counterexample): calling `processAllFeeds(config, onlyNew := true)`
twice in immediate succession with the same in-memory config — exactly what
the scheduler and real-time monitor do — re-summarizes and re-sends both
articles: the watermark was persisted to the store after run 1, but
`config.feeds` still carries the stale `lastProcessed`, so run 2 reports
`totalSummaries = 2`, not `0`. -/
theorem c3_rerun_same_config_resends_cex :
    (processAllFeeds exWorld exCfg [exFeed] true).totalSummaries = 2 ∧
      (processAllFeeds exWorld exCfg
          (processAllFeeds exWorld exCfg [exFeed] true).store
          true).totalSummaries = 2 := by
  decide

/-- C3 (amended): the no-duplicate guarantee holds only across runs that
reload the feed list from the watermark store (as the Vercel cron endpoint
does): if run 1 starts from feeds loaded from the store, a store path exists
and no store write fails, the run timestamp is truthy, no fetched article is
dated after the run timestamp, and no new upstream articles appear, then a
second run over the reloaded feed list sends nothing (`totalSummaries = 0`). -/
theorem c3_second_run_with_reload_sends_nothing (w : World)
    (cfg : ProcessorConfig) (store : List FeedConfig) (now2 : String)
    (hlb : cfg.larkBase = none) (hfeeds : cfg.feeds = store)
    (hnd : (store.map FeedConfig.id).Nodup)
    (hpath : hasStorePath w cfg = true)
    (hsf : ∀ id, w.storeFail id = false)
    (hnow : w.now ≠ "")
    (hfut : ∀ url items, w.reader url = .ok items →
      ∀ it ∈ items, effTs w.getTime (mapItem it) ≤ w.getTime w.now) :
    (processAllFeeds { w with now := now2 }
        { cfg with feeds := (processAllFeeds w cfg store true).store }
        (processAllFeeds w cfg store true).store true).totalSummaries = 0 := by
  have hstore : (processAllFeeds w cfg store true).store
      = store.map (markIf w cfg true) :=
    processAllFeeds_store_char w cfg store true hlb hfeeds hnd
  rw [processAllFeeds, foldl_stepFeed_total]
  simp only [Nat.zero_add]
  apply List.sum_eq_zero
  intro x hx
  rcases List.mem_map.mp hx with ⟨f2, hf2, rfl⟩
  rw [getFeedsWithLarkBase_none _ _ (show
      ({ cfg with feeds := (processAllFeeds w cfg store true).store }).larkBase
        = none from hlb)] at hf2
  have hmem := List.mem_filter.mp hf2
  have hmem1 : f2 ∈ store.map (markIf w cfg true) := hstore ▸ hmem.1
  rcases List.mem_map.mp hmem1 with ⟨f, hf, rfl⟩
  suffices hsum : feedSummaries { w with now := now2 }
      { cfg with feeds := (processAllFeeds w cfg store true).store } true
      (markIf w cfg true f) = [] by
    rw [okSends, hsum]
    rfl
  by_cases hc : f.enabled = true ∧ (feedSummaries w cfg true f).length > 0 ∧
      hasStorePath w cfg = true ∧ w.storeFail f.id = false
  · rw [markIf, if_pos hc, feedSummaries]
    apply processSingleFeed_empty_of_watermark _ (markFeed w.now f) _ _ w.now
      rfl hnow
    intro items hr it hit
    exact hfut (markFeed w.now f).url items hr it hit
  · rw [markIf, if_neg hc]
    have hen : f.enabled = true := by
      have h2 := hmem.2
      rwa [markIf, if_neg hc] at h2
    have hlen : ¬ ((feedSummaries w cfg true f).length > 0) := by
      intro hl
      exact hc ⟨hen, hl, hpath, hsf f.id⟩
    have hempty : feedSummaries w cfg true f = [] :=
      List.length_eq_zero.mp (Nat.eq_zero_of_not_pos hlen)
    have hcongr : feedSummaries { w with now := now2 }
        { cfg with feeds := (processAllFeeds w cfg store true).store } true f
          = feedSummaries w cfg true f := by
      rw [feedSummaries, feedSummaries]
      exact processSingleFeed_congr { w with now := now2 } w rfl rfl rfl rfl
        f cfg.defaultSystemPrompt (jsOrNat cfg.articlesPerFeed 5) true
    rw [hcongr, hempty]

/-- C3 (witness): the amended statement instantiated in the concrete world:
run 2 over the reloaded feed list sends nothing. -/
theorem c3_second_run_with_reload_sends_nothing_witness :
    (processAllFeeds { exWorld with now := "t99b" }
        { exCfg with feeds := (processAllFeeds exWorld exCfg [exFeed] true).store }
        (processAllFeeds exWorld exCfg [exFeed] true).store
        true).totalSummaries = 0 :=
  c3_second_run_with_reload_sends_nothing exWorld exCfg [exFeed] "t99b" rfl rfl
    (by decide) (by decide) (fun _ => rfl) (by decide)
    (by
      intro url items h it hit
      simp only [exWorld] at h
      by_cases hu : url = "u1"
      · rw [if_pos hu] at h
        cases h
        rcases List.mem_cons.mp hit with rfl | hit2
        · decide
        · rcases List.mem_cons.mp hit2 with rfl | hit3
          · decide
          · simp at hit3
      · rw [if_neg hu] at h
        cases h)

/-- C4 (counterexample): with one enabled feed whose two sends both fail,
`successCount + failureCount = 3 > 1` — the claimed bound
`successCount + failureCount ≤ number of enabled feeds` is violated, because
`failureCount` counts failed per-article sends while `successCount` is
incremented for every enabled feed. -/
theorem c4_success_plus_failure_exceeds_feeds_cex :
    (processAllFeeds exWorldDown exCfg [exFeed] false).successCount +
        (processAllFeeds exWorldDown exCfg [exFeed] false).failureCount = 3 ∧
      ((getFeedsWithLarkBase exWorldDown exCfg).filter
          (fun f => f.enabled)).length = 1 := by
  decide

/-- C4 (amended): in every run, `successCount` equals the number of enabled
feeds processed (each loop iteration increments it unconditionally),
`failureCount` is the total number of failed per-article Notifier calls
(which can exceed the feed count), and `totalSummaries ≥ 0`. -/
theorem c4_report_counts (w : World) (cfg : ProcessorConfig)
    (store : List FeedConfig) (onlyNew : Bool) :
    (processAllFeeds w cfg store onlyNew).successCount
        = ((getFeedsWithLarkBase w cfg).filter (fun f => f.enabled)).length ∧
      (processAllFeeds w cfg store onlyNew).failureCount
        = (((getFeedsWithLarkBase w cfg).filter (fun f => f.enabled)).map
            (failSends w cfg onlyNew)).sum ∧
      0 ≤ (processAllFeeds w cfg store onlyNew).totalSummaries := by
  refine ⟨?_, ?_, Nat.zero_le _⟩
  · rw [processAllFeeds, foldl_stepFeed_success]
    simp
  · rw [processAllFeeds, foldl_stepFeed_fail]
    simp

/-- C5 (counterexample): one enabled feed whose reader throws yields the run
state `⟨totalSummaries 0, successCount 1, failureCount 0, unchanged store,
empty trace⟩` — the feed is counted as a success, not as `failureCount += 1`
as the claim states. -/
theorem c5_reader_error_counted_as_success_cex :
    processAllFeeds exWorldReadErr exCfg [exFeed] false
      = { totalSummaries := 0, successCount := 1, failureCount := 0
          store := [exFeed], trace := [] } := by
  decide

/-- C5 (amended): a feed whose Feed Reader call throws produces an empty
summary list, and its loop iteration leaves everything except `successCount`
unchanged: `successCount` increases by 1, `failureCount` and
`totalSummaries` are untouched, the watermark store is untouched, and no
Notifier call is traced — so the contributions of all other feeds (separate
`stepFeed` iterations of the fold) are unaffected. -/
theorem c5_reader_error_feed_isolated (w : World) (cfg : ProcessorConfig)
    (onlyNew : Bool) (st : RunState) (f : FeedConfig) (e : String)
    (hr : w.reader f.url = .error e) :
    feedSummaries w cfg onlyNew f = [] ∧
      stepFeed w cfg onlyNew st f
        = { st with successCount := st.successCount + 1 } := by
  have hfetch : ∀ sinceDate, fetchFeedArticles w f.url
      (jsOrNat cfg.articlesPerFeed 5) sinceDate = .error
        ("Failed to fetch RSS feed from " ++ f.url ++ ": " ++ e) := by
    intro sinceDate
    rw [fetchFeedArticles, hr]
  have hempty : feedSummaries w cfg onlyNew f = [] := by
    rw [feedSummaries, processSingleFeed, hfetch]
  refine ⟨hempty, ?_⟩
  rw [stepFeed]
  simp only [feedSummaries] at hempty
  rw [hempty]
  simp [sendLoop]

/-- C5 (witness): the amended statement instantiated in the concrete world
whose reader throws, starting from the initial run state. -/
theorem c5_reader_error_feed_isolated_witness :
    feedSummaries exWorldReadErr exCfg false exFeed = [] ∧
      stepFeed exWorldReadErr exCfg false
          { totalSummaries := 0, successCount := 0, failureCount := 0
            store := [exFeed], trace := [] } exFeed
        = { totalSummaries := 0, successCount := 1, failureCount := 0
            store := [exFeed], trace := [] } :=
  c5_reader_error_feed_isolated exWorldReadErr exCfg false
    { totalSummaries := 0, successCount := 0, failureCount := 0
      store := [exFeed], trace := [] } exFeed "network error" rfl

/-- C6 (confirmed): the since-comparison is exclusive — every article kept by
an `onlyNew` fetch is strictly newer than the watermark, an article whose
effective timestamp equals the watermark is excluded, and a feed processed
with `onlyNew = true` and a set (truthy) `lastProcessed` consumes exactly
that filtered list. -/
theorem c6_since_filter_exclusive (w : World) (url : String) (limit : Nat)
    (ws : String) (articles : List FeedArticle) (hws : ws ≠ "")
    (hfa : fetchFeedArticles w url limit (some ws) = .ok articles) :
    (∀ a ∈ articles, w.getTime ws < effTs w.getTime a) ∧
      (∀ a, effTs w.getTime a = w.getTime ws → a ∉ articles) ∧
      ∀ (f : FeedConfig) (dp : String), f.url = url →
        f.lastProcessed = some ws →
        processSingleFeed w f dp limit true
          = match articles with
            | [] => []
            | _ :: _ => summarizeLoop w f (jsOr f.customPrompt dp) articles := by
  have h1 := fetch_since_strict w url limit ws articles hws hfa
  refine ⟨h1, ?_, ?_⟩
  · intro a heq hmem
    exact absurd (h1 a hmem) (by rw [heq]; exact lt_irrefl _)
  · intro f dp hurl hlp
    simp only [processSingleFeed, hlp, optTruthy, if_neg hws, if_true, hurl,
      hfa]
    cases articles <;> rfl

/-- C6 (witness): with the watermark at `t10`, the fetch keeps only the
`t20` article, and the article timestamped exactly `t10` is not in it. -/
theorem c6_since_filter_exclusive_witness :
    mapItem itemA ∉ [mapItem itemB] :=
  (c6_since_filter_exclusive exWorld "u1" 5 "t10" [mapItem itemB] (by decide)
      rfl).2.1 (mapItem itemA) (by decide)

/-- C7 (confirmed): every fetched article list is sorted newest-first by the
effective timestamp (normalized ISO date if truthy, else raw date, else 0)
and truncated to the limit; on the spec's example [T-3, T-1, T-2] plus an
undated article, the summaries come out in order [T-1, T-2, T-3, U] (the
undated article last), and a limit of 2 truncates to [T-1, T-2]. -/
theorem c7_sorted_newest_first_truncated :
    (∀ (w : World) (url : String) (limit : Nat) (sinceDate : Option String)
        (articles : List FeedArticle),
      fetchFeedArticles w url limit sinceDate = .ok articles →
        articles.Pairwise
            (fun a b => effTs w.getTime b ≤ effTs w.getTime a) ∧
          articles.length ≤ limit) ∧
      ((processSingleFeed exWorldOrder exFeed "dp" 5 false).map
          (fun s => s.title) = ["T1", "T2", "T3", "U"]) ∧
      ((fetchFeedArticles exWorldOrder "u1" 2 none).map
          (fun l => l.map (fun a => a.title))) = .ok ["T1", "T2"] := by
  refine ⟨?_, by decide, by rfl⟩
  intro w url limit sinceDate articles hfa
  exact fetch_ok_sorted w url limit sinceDate articles hfa

/-- C7 (witness): the sortedness statement instantiated on the concrete
ordering example. -/
theorem c7_sorted_newest_first_truncated_witness :
    ([mapItem exItemT1, mapItem exItemT2, mapItem exItemT3,
        mapItem exItemU].Pairwise
      (fun a b =>
        effTs exWorldOrder.getTime b ≤ effTs exWorldOrder.getTime a)) ∧
      ([mapItem exItemT1, mapItem exItemT2, mapItem exItemT3,
          mapItem exItemU] : List FeedArticle).length ≤ 5 :=
  c7_sorted_newest_first_truncated.1 exWorldOrder "u1" 5 none
    [mapItem exItemT1, mapItem exItemT2, mapItem exItemT3, mapItem exItemU]
    rfl

/-- C8 (counterexample): for an article carrying both date fields
(`pubDate = t10`, `isoDate = t20`), the Summary's `publishedAt` is the raw
`t10`, not the normalized `t20` — the code computes
`publishedAt: article.pubDate || article.isoDate`. -/
theorem c8_published_at_uses_raw_date_cex :
    itemBoth.isoDate = some "t20" ∧ itemBoth.pubDate = some "t10" ∧
      (processSingleFeed exWorldBoth exFeed "dp" 5 false).map
          (fun s => s.publishedAt) = [some "t10"] ∧
      (some "t10" : Option String) ≠ some "t20" := by
  decide

/-- C8 (amended): when both date fields are present (truthy), the normalized
ISO date takes precedence for the effective timestamp used in filtering and
ordering, but the `publishedAt` attached to the Summary takes the raw
`pubDate` first. -/
theorem c8_timestamp_precedence_split (gt : String → Int) (a : FeedArticle)
    (iso : String) (hiso : a.isoDate = some iso) (hne : iso ≠ "") :
    effTs gt a = gt iso ∧
      ∀ (feed : FeedConfig) (text p : String), a.pubDate = some p → p ≠ "" →
        (mkSummary feed a text).publishedAt = some p := by
  constructor
  · simp only [effTs, hiso, optTruthy, if_neg hne]
  · intro feed text p hp hpne
    simp only [mkSummary, jsOrOpt, hp, if_neg hpne]

/-- C8 (witness): the amended statement instantiated on the two-date
article. -/
theorem c8_timestamp_precedence_split_witness :
    effTs gtEx (mapItem itemBoth) = gtEx "t20" ∧
      (mkSummary exFeed (mapItem itemBoth) "s").publishedAt = some "t10" :=
  ⟨(c8_timestamp_precedence_split gtEx (mapItem itemBoth) "t20" rfl
      (by decide)).1,
    (c8_timestamp_precedence_split gtEx (mapItem itemBoth) "t20" rfl
      (by decide)).2 exFeed "s" "t10" rfl (by decide)⟩

/-- C9 (confirmed): with an initialized LLM client, `summarizeContent` on
empty or whitespace-only content returns the fixed sentinel string and makes
no remote API call (call count 0), for every prompt. -/
theorem c9_empty_content_sentinel_no_remote_call (w : World) (c : LLMConfig)
    (content systemPrompt : String) (hinit : w.llmConfig = some c)
    (hkey : c.apiKey ≠ "") (hempty : jsTrim content = "") :
    summarizeContent w content systemPrompt
      = (.ok "No content to summarize.", 0) := by
  simp only [summarizeContent, hinit]
  rw [if_neg hkey, if_pos hempty]

/-- C9 (witness): whitespace-only content in the initialized concrete world. -/
theorem c9_empty_content_sentinel_no_remote_call_witness :
    summarizeContent exWorld "  \n\t " "p"
      = (.ok "No content to summarize.", 0) :=
  c9_empty_content_sentinel_no_remote_call exWorld { apiKey := "k" }
    "  \n\t " "p" rfl (by decide) (by decide)

/-- C10 (confirmed): with no initialized LLM configuration carrying an API
key, `summarizeContent` rejects with the initialization error for every
input — including empty content — without any remote call, and the sentinel
string is not returned, because the initialization check precedes the
empty-content check. -/
theorem c10_uninitialized_rejects_even_empty (w : World)
    (content systemPrompt : String)
    (h : w.llmConfig = none ∨ ∀ c, w.llmConfig = some c → c.apiKey = "") :
    summarizeContent w content systemPrompt
      = (.error "OpenAI API not initialized. Call initializeLLMClient first.",
          0) ∧
      (summarizeContent w content systemPrompt).1
        ≠ .ok "No content to summarize." := by
  have heq : summarizeContent w content systemPrompt
      = (.error "OpenAI API not initialized. Call initializeLLMClient first.",
          0) := by
    cases hc : w.llmConfig with
    | none => simp [summarizeContent, hc]
    | some c =>
      rcases h with h | h
      · rw [hc] at h
        exact absurd h (by simp)
      · have hk := h c hc
        simp [summarizeContent, hc, hk]
  refine ⟨heq, ?_⟩
  rw [heq]
  simp

/-- C10 (witness): uninitialized world, empty content — the initialization
error wins over the sentinel. -/
theorem c10_uninitialized_rejects_even_empty_witness :
    summarizeContent { exWorld with llmConfig := none } "" "p"
      = (.error "OpenAI API not initialized. Call initializeLLMClient first.",
          0) ∧
      (summarizeContent { exWorld with llmConfig := none } "" "p").1
        ≠ .ok "No content to summarize." :=
  c10_uninitialized_rejects_even_empty { exWorld with llmConfig := none } ""
    "p" (Or.inl rfl)
